import Mathlib

/-!
# Verification of the Yandex Tracker MCP server's response-normalization layer

This file shallowly embeds the Python source `src/server.py` of the
`yandex-tracker-mcp` repository into Lean 4 and proves (or refutes) the
frozen claims about it.

## Modelling conventions

Python values are modelled by the inductive `PyVal`:

* `none`, `str`, `int`, `boolv` model the corresponding Python primitives.
* `float` carries an opaque textual payload: no claim performs arithmetic
  on floats, they only pass through the normalizer unchanged.  Its
  truthiness is modelled as `true` (the value `0.0` is not modelled).
* `datetime iso` models a `datetime.datetime` object carrying the string
  its `isoformat()` method returns.
* `list` and `dict` model Python lists and string-keyed dicts.  Dict
  lookup finds the first entry with the given key, and update prepends,
  which is observationally equivalent (for lookups) to Python's
  single-entry dicts.
* `obj attrs strRes` models an arbitrary Python object: `attrs` maps
  attribute names to either a value or the exception raised when the
  attribute is accessed (a property may raise), and `strRes` is the
  result of `str(·)` on the object — either a string or a raised
  exception.  This is exactly the degree of freedom the source probes
  with `hasattr` / `getattr` / `str`.

Exceptions are modelled by `Exn`: `NotFound` (imported by the source from
the tracker client) versus any other `Exception`.  Fallible Python
expressions become `Except Exn`-valued Lean functions.  The text of
`str()` on containers and of `AttributeError` messages is abstracted
(rendered as a fixed placeholder text); no claim depends on those texts,
only on the success/failure and on the constructor of the result.
-/

/-- Python exceptions, split exactly as the source's handlers split them:
`except NotFound` versus `except Exception`. -/
inductive Exn where
  | notFound (msg : String)
  | other (msg : String)
deriving DecidableEq, Repr

/-- The message `str(e)` of an exception, used by the source in
`f"Failed to ...: {str(e)}"`. -/
def Exn.msg : Exn → String
  | .notFound m => m
  | .other m => m

/-- Python runtime values, at the fidelity the source discriminates them. -/
inductive PyVal where
  | none
  | str (s : String)
  | int (n : Int)
  | boolv (b : Bool)
  | float (repr : String)
  | datetime (iso : String)
  | list (xs : List PyVal)
  | dict (entries : List (String × PyVal))
  | obj (attrs : List (String × (Exn ⊕ PyVal))) (strRes : Exn ⊕ String)
deriving Repr

/-- First-match association lookup (Python dict / attribute table lookup). -/
def alistLookup {α : Type} : List (String × α) → String → Option α
  | [], _ => Option.none
  | (k, v) :: rest, key => if k = key then some v else alistLookup rest key

/-- `d.get(key, default)` on a Python dict. -/
def dictGetD (entries : List (String × PyVal)) (key : String) (dflt : PyVal) : PyVal :=
  match alistLookup entries key with
  | some v => v
  | Option.none => dflt

/-- `hasattr(v, name)`: `True` when attribute access succeeds, `False` when
it raises `AttributeError` (attribute absent); a raising property
propagates its exception (Python 3 `hasattr` only swallows
`AttributeError`).  Of the builtin types, only dicts have one of the two
attribute names the source ever probes (`'display'`, `'get'`): dicts have
a `get` method. -/
def pyHasAttr (v : PyVal) (name : String) : Except Exn Bool :=
  match v with
  | .obj attrs _ =>
    match alistLookup attrs name with
    | Option.none => .ok false
    | some (.inl e) => .error e
    | some (.inr _) => .ok true
  | .dict _ => .ok (name = "get")
  | _ => .ok false

/-- `getattr(v, name, default)`: the default is used when the attribute is
absent; a raising property propagates.  Builtins have none of the probed
attributes as data attributes, so they yield the default. -/
def pyGetattrD (v : PyVal) (name : String) (dflt : PyVal) : Except Exn PyVal :=
  match v with
  | .obj attrs _ =>
    match alistLookup attrs name with
    | Option.none => .ok dflt
    | some (.inl e) => .error e
    | some (.inr x) => .ok x
  | _ => .ok dflt

/-- Plain attribute access `v.name`: raises `AttributeError` (modelled as
`Exn.other`) when absent; a raising property propagates.  The
`AttributeError` message text is abstracted. -/
def pyGetattr (v : PyVal) (name : String) : Except Exn PyVal :=
  match v with
  | .obj attrs _ =>
    match alistLookup attrs name with
    | Option.none => .error (.other ("AttributeError: " ++ name))
    | some (.inl e) => .error e
    | some (.inr x) => .ok x
  | _ => .error (.other ("AttributeError: " ++ name))

/-- `str(v)`.  For objects this is the object's own (possibly raising)
conversion; for containers the rendered text is abstracted to a fixed
placeholder, since no claim depends on the repr text — only on whether the
conversion succeeds and returns a string. -/
def pyStr : PyVal → Except Exn String
  | .none => .ok "None"
  | .str s => .ok s
  | .int n => .ok (toString n)
  | .boolv b => .ok (if b then "True" else "False")
  | .float r => .ok r
  | .datetime iso => .ok iso
  | .list _ => .ok "<list repr>"
  | .dict _ => .ok "<dict repr>"
  | .obj _ strRes =>
    match strRes with
    | .inl e => .error e
    | .inr s => .ok s

/-- The fallback `except: return str(ref)` branch of `convert_reference`:
a second `str(ref)` whose failure propagates (there is no further
handler).  In this pure model `str` is deterministic, so the retry
returns the same result the in-`try` call would. -/
def refFallback (ref : PyVal) : Except Exn PyVal :=
  match pyStr ref with
  | .ok s => .ok (.str s)
  | .error e => .error e

/-- `convert_reference` (src/server.py lines 21–51): `None` and primitives
pass through, datetimes become their `isoformat()` string, then a
`try`-block probes for a `display` attribute and either builds a
reference dict or string-converts; any exception inside the `try` falls
to `except: return str(ref)`. -/
def convert_reference (ref : PyVal) : Except Exn PyVal :=
  match ref with
  | .none => .ok .none
  | .str s => .ok (.str s)
  | .int n => .ok (.int n)
  | .float r => .ok (.float r)
  | .boolv b => .ok (.boolv b)
  | .datetime iso => .ok (.str iso)
  | other =>
    match pyHasAttr other "display" with
    | .error _ => refFallback other
    | .ok false =>
      -- `return str(ref)` inside the `try`; if it raises, the handler
      -- runs `str(ref)` again.
      match pyStr other with
      | .ok s => .ok (.str s)
      | .error _ => refFallback other
    | .ok true =>
      match pyGetattrD other "id" .none with
      | .error _ => refFallback other
      | .ok idv =>
        match pyGetattrD other "key" .none with
        | .error _ => refFallback other
        | .ok keyv =>
          match pyGetattr other "display" with
          | .error _ => refFallback other
          | .ok dv => .ok (.dict [("id", idv), ("key", keyv), ("display", dv)])

/-- `format_issue` (src/server.py lines 53–73): plain attribute access on
the raw issue (which raises when a field is absent), with reference-typed
fields passed through `convert_reference`.  Evaluation order follows the
Python dict literal. -/
def format_issue (issue : PyVal) : Except Exn PyVal := do
  let key ← pyGetattr issue "key"
  let summary ← pyGetattr issue "summary"
  let description ← pyGetattr issue "description"
  let statusRaw ← pyGetattr issue "status"
  let status ← convert_reference statusRaw
  let assigneeRaw ← pyGetattr issue "assignee"
  let assignee ← convert_reference assigneeRaw
  let createdRaw ← pyGetattr issue "createdAt"
  let created_at ← convert_reference createdRaw
  let updatedRaw ← pyGetattr issue "updatedAt"
  let updated_at ← convert_reference updatedRaw
  let priorityRaw ← pyGetattr issue "priority"
  let priority ← convert_reference priorityRaw
  let typeRaw ← pyGetattr issue "type"
  let type ← convert_reference typeRaw
  let queueRaw ← pyGetattr issue "queue"
  let queue ← convert_reference queueRaw
  .ok (.dict [("key", key), ("summary", summary), ("description", description),
    ("status", status), ("assignee", assignee), ("created_at", created_at),
    ("updated_at", updated_at), ("priority", priority), ("type", type),
    ("queue", queue)])

/-- The uniform single-key error record `{"error": msg}` every handler
returns. -/
def errDict (msg : String) : PyVal := .dict [("error", .str msg)]

/-- `try: body ... except NotFound as e: return nf(str(e))
except Exception as e: return onOther(str(e))` — the handler shape of the
tools that treat `NotFound` specially. -/
def handleNF (body : Except Exn PyVal) (nf : String → PyVal)
    (onOther : String → PyVal) : Except Exn PyVal :=
  match body with
  | .ok v => .ok v
  | .error (.notFound m) => .ok (nf m)
  | .error (.other m) => .ok (onOther m)

/-- `try: body ... except Exception as e: return onExc(str(e))` — the
handler shape of the tools with a single catch-all handler (`NotFound` is
an `Exception`, so it is caught here too). -/
def handleAll (body : Except Exn PyVal) (onExc : String → PyVal) : Except Exn PyVal :=
  match body with
  | .ok v => .ok v
  | .error e => .ok (onExc e.msg)

/-- The dict literal built by `get_project` on success
(src/server.py lines 84–94). -/
def projectBody (project : PyVal) : Except Exn PyVal := do
  let idv ← pyGetattr project "id"
  let version ← pyGetattr project "version"
  let key ← pyGetattr project "key"
  let name ← pyGetattr project "name"
  let description ← pyGetattrD project "description" .none
  let leadRaw ← pyGetattr project "lead"
  let lead ← convert_reference leadRaw
  let status ← pyGetattrD project "status" .none
  let startDate ← pyGetattrD project "startDate" .none
  let endDate ← pyGetattrD project "endDate" .none
  .ok (.dict [("id", idv), ("version", version), ("key", key), ("name", name),
    ("description", description), ("lead", lead), ("status", status),
    ("startDate", startDate), ("endDate", endDate)])

/-- `get_project` (src/server.py lines 75–98).  The external
`client.projects.get` is abstracted as the function argument
`projectsGet`. -/
def get_project (projectsGet : String → Except Exn PyVal) (project_id : String) :
    Except Exn PyVal :=
  handleNF (do
      let project ← projectsGet project_id
      projectBody project)
    (fun _ => errDict ("Project " ++ project_id ++ " not found"))
    (fun m => errDict ("Failed to get project: " ++ m))

/-- `get_issue` (src/server.py lines 100–113); `client.issues[·]` is the
function argument `issuesGet`. -/
def get_issue (issuesGet : String → Except Exn PyVal) (issue_id : String) :
    Except Exn PyVal :=
  handleNF (do
      let issue ← issuesGet issue_id
      format_issue issue)
    (fun _ => errDict ("Issue " ++ issue_id ++ " not found"))
    (fun m => errDict ("Failed to get issue: " ++ m))

/-- `None ↦ None, some s ↦ s` — an `Optional[str]` argument as the Python
value actually passed along. -/
def optStrPy : Option String → PyVal
  | Option.none => .none
  | some s => .str s

/-- `None ↦ None, some n ↦ n` for `Optional[int]` arguments. -/
def optIntPy : Option Int → PyVal
  | Option.none => .none
  | some n => .int n

/-- The keyword arguments `create_issue` passes to
`client.issues.create(queue=…, summary=…, description=…, type=…,
priority=…, assignee=…)` (src/server.py lines 135–142): every keyword is
always present, unsupplied optionals are passed as `None`. -/
def createIssueRequest (queue summary : String)
    (description type priority assignee : Option String) : List (String × PyVal) :=
  [("queue", .str queue), ("summary", .str summary),
   ("description", optStrPy description), ("type", optStrPy type),
   ("priority", optStrPy priority), ("assignee", optStrPy assignee)]

/-- `create_issue` (src/server.py lines 115–145); `client.issues.create`
is abstracted as a function of the keyword-argument record it receives. -/
def create_issue (issuesCreate : List (String × PyVal) → Except Exn PyVal)
    (queue summary : String)
    (description type priority assignee : Option String := Option.none) :
    Except Exn PyVal :=
  handleAll (do
      let issue ← issuesCreate
        (createIssueRequest queue summary description type priority assignee)
      format_issue issue)
    (fun m => errDict ("Failed to create issue: " ++ m))

/-- `setattr`-style assignment `v.name = x`: objects get the attribute
set; assignment on a non-object raises.  Prepending plus first-match
lookup models the overwrite. -/
def pySetattr (v : PyVal) (name : String) (x : PyVal) : Except Exn PyVal :=
  match v with
  | .obj attrs strRes => .ok (.obj ((name, Sum.inr x) :: attrs) strRes)
  | _ => .error (.other ("AttributeError: " ++ name))

/-- One `if arg: issue.field = arg` step of `edit_issue`
(src/server.py lines 168–177): an `Optional[str]` argument is truthy
exactly when it is a non-empty string. -/
def editField (issue : PyVal) (name : String) (v : Option String) :
    Except Exn PyVal :=
  match v with
  | some s => if s = "" then .ok issue else pySetattr issue name (.str s)
  | Option.none => .ok issue

/-- The block of five `if arg: issue.field = arg` statements of
`edit_issue` (src/server.py lines 168–177), in source order. -/
def applyEdits (issue : PyVal)
    (summary description type priority assignee : Option String) :
    Except Exn PyVal := do
  let issue ← editField issue "summary" summary
  let issue ← editField issue "description" description
  let issue ← editField issue "type" type
  let issue ← editField issue "priority" priority
  let issue ← editField issue "assignee" assignee
  .ok issue

/-- `edit_issue` (src/server.py lines 147–183); `issue.save()` is the
capability `save` of the fetched issue. -/
def edit_issue (issuesGet : String → Except Exn PyVal)
    (save : PyVal → Except Exn Unit) (issue_id : String)
    (summary description type priority assignee : Option String := Option.none) :
    Except Exn PyVal :=
  handleNF (do
      let issue ← issuesGet issue_id
      let issue ← applyEdits issue summary description type priority assignee
      let _ ← save issue
      format_issue issue)
    (fun _ => errDict ("Issue " ++ issue_id ++ " not found"))
    (fun m => errDict ("Failed to edit issue: " ++ m))

/-- `move_issue` (src/server.py lines 185–200); `issue.move(queue)` is the
capability `moveFn`. -/
def move_issue (issuesGet : String → Except Exn PyVal)
    (moveFn : PyVal → String → Except Exn Unit) (issue_id queue : String) :
    Except Exn PyVal :=
  handleNF (do
      let issue ← issuesGet issue_id
      let _ ← moveFn issue queue
      format_issue issue)
    (fun _ => errDict ("Issue " ++ issue_id ++ " not found"))
    (fun m => errDict ("Failed to move issue: " ++ m))

/-- `count_issues` (src/server.py lines 202–217); the raw connection POST
is the capability `connPost`. -/
def count_issues (connPost : String → List (String × PyVal) → Except Exn PyVal)
    (query : String) : Except Exn PyVal :=
  handleAll (do
      let response ← connPost "/v3/issues/_count" [("query", .str query)]
      .ok (.dict [("count", response)]))
    (fun m => errDict ("Failed to count issues: " ++ m))

/-- The list comprehension `[format_issue(issue) for issue in issues]`:
left-to-right, the first raised exception aborts the whole comprehension. -/
def formatIssueList : List PyVal → Except Exn (List PyVal)
  | [] => .ok []
  | issue :: rest => do
    let f ← format_issue issue
    let fs ← formatIssueList rest
    .ok (f :: fs)

/-- The arguments `search_issues` passes to
`client.issues.find(query, per_page=per_page, page=page)`
(src/server.py line 288): the query plus the two keyword values exactly
as received — both keywords are always present. -/
def findRequest (query : String) (per_page page : Option Int) :
    String × PyVal × PyVal :=
  (query, optIntPy per_page, optIntPy page)

/-- `search_issues` (src/server.py lines 219–294); `client.issues.find`
is the capability `find`, receiving the query and the `per_page` / `page`
keyword values (Python defaults `50` and `1`). -/
def search_issues (find : String × PyVal × PyVal → Except Exn (List PyVal))
    (query : String) (per_page : Option Int := some 50)
    (page : Option Int := some 1) : Except Exn PyVal :=
  handleAll (do
      let issues ← find (findRequest query per_page page)
      let formatted ← formatIssueList issues
      .ok (.dict [("issues", .list formatted), ("total", .int issues.length)]))
    (fun m => errDict ("Failed to search issues: " ++ m))

/-- `link_issues` (src/server.py lines 296–317); `source.link(target,
link_type)` is the capability `linkFn`. -/
def link_issues (issuesGet : String → Except Exn PyVal)
    (linkFn : PyVal → PyVal → String → Except Exn Unit)
    (source_issue target_issue link_type : String) : Except Exn PyVal :=
  handleNF (do
      let source ← issuesGet source_issue
      let target ← issuesGet target_issue
      let _ ← linkFn source target link_type
      let fs ← format_issue source
      let ft ← format_issue target
      .ok (.dict [("source", fs), ("target", ft), ("link_type", .str link_type)]))
    (fun m => errDict ("Issue not found: " ++ m))
    (fun m => errDict ("Failed to link issues: " ++ m))

/-- Python truthiness (`if response:`): empty containers, `None`, `0`,
`""` and `False` are falsy.  Floats are opaque in this model (the value
`0.0` is not modelled) and default objects are truthy. -/
def pyTruthy : PyVal → Bool
  | .none => false
  | .boolv b => b
  | .int n => decide (n ≠ 0)
  | .str s => decide (s ≠ "")
  | .float _ => true
  | .datetime _ => true
  | .list xs => !xs.isEmpty
  | .dict es => !es.isEmpty
  | .obj _ _ => true

/-- `len(v)`: defined for sequences and mappings, raises `TypeError`
otherwise. -/
def pyLen : PyVal → Except Exn Int
  | .list xs => .ok xs.length
  | .dict es => .ok es.length
  | .str s => .ok s.length
  | _ => .error (.other "TypeError: object has no len")

/-- `list(v)`: lists yield their elements, strings their characters,
dicts their keys; other values raise `TypeError`. -/
def pyToList : PyVal → Except Exn (List PyVal)
  | .list xs => .ok xs
  | .str s => .ok (s.toList.map (fun c => .str (String.singleton c)))
  | .dict es => .ok (es.map (fun p => .str p.1))
  | _ => .error (.other "TypeError: object is not iterable")

/-- `get_boards` (src/server.py lines 319–333); the raw connection GET is
the capability `connGet` (path, query parameters). -/
def get_boards (connGet : String → List (String × String) → Except Exn PyVal) :
    Except Exn PyVal :=
  handleAll (do
      let response ← connGet "/v3/boards" []
      let total ← if pyTruthy response then pyLen response else .ok 0
      .ok (.dict [("boards", response), ("total", .int total)]))
    (fun m => errDict ("Failed to get boards: " ++ m))

/-- `get_board` (src/server.py lines 335–347): the raw response is
returned verbatim on success. -/
def get_board (connGet : String → List (String × String) → Except Exn PyVal)
    (board_id : String) : Except Exn PyVal :=
  handleAll (connGet ("/v3/boards/" ++ board_id) [])
    (fun m => errDict ("Failed to get board: " ++ m))

/-- The method call `comment.get(key, default)`: on a dict this is dict
lookup with a default and never raises.  It is only ever invoked after
`hasattr(comment, 'get')` succeeded; an `obj` that merely carries a
`get` attribute would be an arbitrary callable, which this model leaves
as a `TypeError`. -/
def pyDictGetMethod (v : PyVal) (key : String) (dflt : PyVal) : Except Exn PyVal :=
  match v with
  | .dict es => .ok (dictGetD es key dflt)
  | _ => .error (.other "TypeError: get is not callable")

/-- Lines 371–372 of src/server.py:
`author_info = comment.get('createdBy', {}) if hasattr(comment, 'get')
else getattr(comment, 'createdBy', {})` followed by
`author_display = author_info.get('display', 'Unknown')
if isinstance(author_info, dict) else str(author_info)`. -/
def authorDisplay (comment : PyVal) : Except Exn PyVal := do
  let hasGet ← pyHasAttr comment "get"
  let author_info ←
    if hasGet then pyDictGetMethod comment "createdBy" (.dict [])
    else pyGetattrD comment "createdBy" (.dict [])
  match author_info with
  | .dict es => .ok (dictGetD es "display" (.str "Unknown"))
  | v => do
    let s ← pyStr v
    .ok (.str s)

/-- The loop body of `get_issue_comments` (src/server.py lines 369–394):
author extraction, then a branch on the access style of the record
(mapping-style via `.get` with defaults, attribute-style via `getattr`
with defaults). -/
def format_comment (comment : PyVal) : Except Exn PyVal := do
  let author ← authorDisplay comment
  let hasGet ← pyHasAttr comment "get"
  if hasGet then do
    let idv ← pyDictGetMethod comment "id" .none
    let text ← pyDictGetMethod comment "text" (.str "")
    let created_at ← pyDictGetMethod comment "createdAt" .none
    let updated_at ← pyDictGetMethod comment "updatedAt" .none
    let version ← pyDictGetMethod comment "version" .none
    .ok (.dict [("id", idv), ("text", text), ("author", author),
      ("created_at", created_at), ("updated_at", updated_at),
      ("version", version)])
  else do
    let idv ← pyGetattrD comment "id" .none
    let text ← pyGetattrD comment "text" (.str "")
    let created_at ← pyGetattrD comment "createdAt" .none
    let updated_at ← pyGetattrD comment "updatedAt" .none
    let version ← pyGetattrD comment "version" .none
    .ok (.dict [("id", idv), ("text", text), ("author", author),
      ("created_at", created_at), ("updated_at", updated_at),
      ("version", version)])

/-- The `for comment in comments_list: … comments_data.append(…)` loop:
records are formatted left to right, the first raised exception aborts
the loop (and is caught by the tool's handler). -/
def formatComments : List PyVal → Except Exn (List PyVal)
  | [] => .ok []
  | c :: rest => do
    let d ← format_comment c
    let ds ← formatComments rest
    .ok (d :: ds)

/-- `get_issue_comments` (src/server.py lines 349–404). -/
def get_issue_comments
    (connGet : String → List (String × String) → Except Exn PyVal)
    (issue_id : String) : Except Exn PyVal :=
  handleNF (do
      let response ← connGet ("/v2/issues/" ++ issue_id ++ "/comments")
        [("expand", "all")]
      let comments_data ←
        if pyTruthy response then do
          let comments_list ← pyToList response
          formatComments comments_list
        else .ok []
      .ok (.dict [("issue_id", .str issue_id), ("comments", .list comments_data),
        ("total", .int comments_data.length)]))
    (fun _ => errDict ("Issue " ++ issue_id ++ " not found"))
    (fun m => errDict ("Failed to get comments: " ++ m))

/-! ## Statement-side helper definitions

These are not translations of source code; they are vocabulary for the
theorem statements below (classifying inputs, or describing the value a
source function is proved to produce). -/

/-- A primitive (or `None`) Python value: the shapes the normalizer's
`isinstance` chain passes through unchanged. -/
def isPrim : PyVal → Bool
  | .none => true
  | .str _ => true
  | .int _ => true
  | .boolv _ => true
  | .float _ => true
  | _ => false

/-- `str(v)` succeeds on everything except an object whose conversion
raises. -/
def safePyStrArg : PyVal → Bool
  | .obj _ (.inl _) => false
  | _ => true

/-- An attribute table none of whose entries raises on access. -/
def safeAttrs : List (String × (Exn ⊕ PyVal)) → Bool
  | [] => true
  | (_, .inl _) :: _ => false
  | (_, .inr _) :: rest => safeAttrs rest

/-- `getattr(obj, name, dflt)` as a pure value, for objects with a
non-raising attribute table. -/
def attrGetD (attrs : List (String × (Exn ⊕ PyVal))) (name : String)
    (dflt : PyVal) : PyVal :=
  match alistLookup attrs name with
  | some (.inr x) => x
  | _ => dflt

/-- A comment record on which the comment formatter cannot raise: a
mapping-style record whose `createdBy` entry (if present) is a dict or
has a non-raising `str`, or an attribute-style object none of whose
attributes raises, which does not masquerade as a mapping (no `get`
attribute), and whose `createdBy` (if present and not a dict) has a
non-raising `str`. -/
def safeCommentRecord : PyVal → Bool
  | .dict es =>
    (match alistLookup es "createdBy" with
     | some (.dict _) => true
     | some v => safePyStrArg v
     | Option.none => true)
  | .obj attrs _ =>
    safeAttrs attrs && (alistLookup attrs "get").isNone &&
    (match alistLookup attrs "createdBy" with
     | some (.inr (.dict _)) => true
     | some (.inr v) => safePyStrArg v
     | some (.inl _) => false
     | Option.none => true)
  | _ => false

/-- The effect of one `if arg: issue.field = arg` step on the stored
value of that field: a truthy (non-`None`, non-empty) argument installs
the new string, a falsy one leaves the old value. -/
def editedValue (old : Option (Exn ⊕ PyVal)) (arg : Option String) :
    Option (Exn ⊕ PyVal) :=
  match arg with
  | some s => if s = "" then old else some (Sum.inr (.str s))
  | Option.none => old

/-! ## General lemmas -/

theorem except_bind_ok {α β γ : Type} (x : Except α β) (f : β → Except α γ)
    (c : γ) :
    (x >>= f) = Except.ok c ↔ ∃ b, x = Except.ok b ∧ f b = Except.ok c := by
  cases x <;> simp [Bind.bind, Except.bind]

theorem handleNF_total (body : Except Exn PyVal) (nf onOther : String → PyVal) :
    ∃ v, handleNF body nf onOther = .ok v := by
  cases body with
  | ok v => exact ⟨v, rfl⟩
  | error e =>
    cases e with
    | notFound m => exact ⟨nf m, rfl⟩
    | other m => exact ⟨onOther m, rfl⟩

theorem handleAll_total (body : Except Exn PyVal) (onExc : String → PyVal) :
    ∃ v, handleAll body onExc = .ok v := by
  cases body with
  | ok v => exact ⟨v, rfl⟩
  | error e => exact ⟨onExc e.msg, rfl⟩

/-! ## Claim C2 -/

/-- C2: every tool operation, for every behavior of the external client
(including any raised `NotFound` or other exception, at any point of the
operation), returns a value rather than propagating a fault; and when the
client call raises, the returned value is the single-key record
`{error: <message>}`. -/
theorem claim_C2_operation_boundary :
    (∀ g pid, ∃ v, get_project g pid = .ok v) ∧
    (∀ g iid, ∃ v, get_issue g iid = .ok v) ∧
    (∀ cr q s d t p a, ∃ v, create_issue cr q s d t p a = .ok v) ∧
    (∀ g sv iid s d t p a, ∃ v, edit_issue g sv iid s d t p a = .ok v) ∧
    (∀ g mv iid q, ∃ v, move_issue g mv iid q = .ok v) ∧
    (∀ cp q, ∃ v, count_issues cp q = .ok v) ∧
    (∀ f q pp pg, ∃ v, search_issues f q pp pg = .ok v) ∧
    (∀ g lk s t lt, ∃ v, link_issues g lk s t lt = .ok v) ∧
    (∀ cg, ∃ v, get_boards cg = .ok v) ∧
    (∀ cg bid, ∃ v, get_board cg bid = .ok v) ∧
    (∀ cg iid, ∃ v, get_issue_comments cg iid = .ok v) ∧
    (∀ e pid, ∃ m, get_project (fun _ => .error e) pid = .ok (errDict m)) ∧
    (∀ e iid, ∃ m, get_issue (fun _ => .error e) iid = .ok (errDict m)) ∧
    (∀ e q s d t p a, ∃ m,
      create_issue (fun _ => .error e) q s d t p a = .ok (errDict m)) ∧
    (∀ e sv iid s d t p a, ∃ m,
      edit_issue (fun _ => .error e) sv iid s d t p a = .ok (errDict m)) ∧
    (∀ e mv iid q, ∃ m,
      move_issue (fun _ => .error e) mv iid q = .ok (errDict m)) ∧
    (∀ e q, ∃ m, count_issues (fun _ _ => .error e) q = .ok (errDict m)) ∧
    (∀ e q pp pg, ∃ m,
      search_issues (fun _ => .error e) q pp pg = .ok (errDict m)) ∧
    (∀ e lk s t lt, ∃ m,
      link_issues (fun _ => .error e) lk s t lt = .ok (errDict m)) ∧
    (∀ e, ∃ m, get_boards (fun _ _ => .error e) = .ok (errDict m)) ∧
    (∀ e bid, ∃ m, get_board (fun _ _ => .error e) bid = .ok (errDict m)) ∧
    (∀ e iid, ∃ m,
      get_issue_comments (fun _ _ => .error e) iid = .ok (errDict m)) := by
  refine ⟨fun g pid => handleNF_total _ _ _,
    fun g iid => handleNF_total _ _ _,
    fun cr q s d t p a => handleAll_total _ _,
    fun g sv iid s d t p a => handleNF_total _ _ _,
    fun g mv iid q => handleNF_total _ _ _,
    fun cp q => handleAll_total _ _,
    fun f q pp pg => handleAll_total _ _,
    fun g lk s t lt => handleNF_total _ _ _,
    fun cg => handleAll_total _ _,
    fun cg bid => handleAll_total _ _,
    fun cg iid => handleNF_total _ _ _,
    ?_, ?_, ?_, ?_, ?_, ?_, ?_, ?_, ?_, ?_, ?_⟩ <;>
  · intro e
    cases e <;> (intros; exact ⟨_, rfl⟩)

/-! ## Claim C7 -/

/-- C7: when the issue lookup raises `NotFound`, `get_issue` returns
exactly `{error: "Issue <key> not found"}`. -/
theorem claim_C7_not_found_message (issuesGet : String → Except Exn PyVal)
    (issue_id m : String) (h : issuesGet issue_id = .error (.notFound m)) :
    get_issue issuesGet issue_id =
      .ok (errDict ("Issue " ++ issue_id ++ " not found")) := by
  unfold get_issue
  rw [show (do
      let issue ← issuesGet issue_id
      format_issue issue) = Except.error (Exn.notFound m) by rw [h]; rfl]
  rfl

/-- Witness for C7 at the spec's own scenario input `TASK-999`. -/
theorem claim_C7_witness :
    get_issue (fun _ => .error (.notFound "TASK-999 does not exist")) "TASK-999" =
      .ok (errDict "Issue TASK-999 not found") :=
  claim_C7_not_found_message _ "TASK-999" "TASK-999 does not exist" rfl

/-! ## Claim C1 -/

/-- C1 counterexample: an object with no `display` attribute whose
`str(·)` raises makes `convert_reference` propagate that exception — the
`except:` handler re-runs `str(ref)`, which fails again; there is no
fixed placeholder string anywhere in the function. -/
theorem claim_C1_counterexample :
    convert_reference (.obj [] (.inl (.other "str conversion failed"))) =
      .error (.other "str conversion failed") := rfl

/-- C1 (amended): `convert_reference` maps `None` to `None`, passes
primitives through, turns datetimes into their ISO string, maps
display-bearing objects with non-raising field access to Reference
records (missing `id`/`key` defaulting to `null`), string-converts every
other value (objects without `display`, lists, dicts), and for every
value either succeeds or propagates exactly the exception that
`str(ref)` raises — when the string conversion fails, the error
propagates instead of being replaced by a placeholder. -/
theorem claim_C1_normalizer_behavior :
    convert_reference PyVal.none = .ok PyVal.none ∧
    (∀ s, convert_reference (.str s) = .ok (.str s)) ∧
    (∀ n, convert_reference (.int n) = .ok (.int n)) ∧
    (∀ b, convert_reference (.boolv b) = .ok (.boolv b)) ∧
    (∀ r, convert_reference (.float r) = .ok (.float r)) ∧
    (∀ iso, convert_reference (.datetime iso) = .ok (.str iso)) ∧
    (∀ attrs strRes dv,
      alistLookup attrs "display" = some (Sum.inr dv) →
      (∀ e, alistLookup attrs "id" ≠ some (Sum.inl e)) →
      (∀ e, alistLookup attrs "key" ≠ some (Sum.inl e)) →
      convert_reference (.obj attrs strRes) =
        .ok (.dict [("id", attrGetD attrs "id" PyVal.none),
          ("key", attrGetD attrs "key" PyVal.none), ("display", dv)])) ∧
    (∀ attrs strRes s,
      alistLookup attrs "display" = Option.none →
      pyStr (.obj attrs strRes) = .ok s →
      convert_reference (.obj attrs strRes) = .ok (.str s)) ∧
    (∀ xs, convert_reference (.list xs) = (pyStr (.list xs)).map .str) ∧
    (∀ es, convert_reference (.dict es) = (pyStr (.dict es)).map .str) ∧
    (∀ ref e, convert_reference ref = .error e → pyStr ref = .error e) := by
  refine ⟨rfl, fun s => rfl, fun n => rfl, fun b => rfl, fun r => rfl,
    fun iso => rfl, ?_, ?_, ?_, ?_, ?_⟩
  · intro attrs strRes dv hdisp hid hkey
    have hhas : pyHasAttr (.obj attrs strRes) "display" = .ok true := by
      simp [pyHasAttr, hdisp]
    have hgd : pyGetattr (.obj attrs strRes) "display" = .ok dv := by
      simp [pyGetattr, hdisp]
    have hgid : pyGetattrD (.obj attrs strRes) "id" PyVal.none =
        .ok (attrGetD attrs "id" PyVal.none) := by
      cases h2 : alistLookup attrs "id" with
      | none => simp [pyGetattrD, attrGetD, h2]
      | some x =>
        cases x with
        | inl e => exact absurd h2 (hid e)
        | inr y => simp [pyGetattrD, attrGetD, h2]
    have hgkey : pyGetattrD (.obj attrs strRes) "key" PyVal.none =
        .ok (attrGetD attrs "key" PyVal.none) := by
      cases h3 : alistLookup attrs "key" with
      | none => simp [pyGetattrD, attrGetD, h3]
      | some x =>
        cases x with
        | inl e => exact absurd h3 (hkey e)
        | inr y => simp [pyGetattrD, attrGetD, h3]
    simp [convert_reference, hhas, hgd, hgid, hgkey]
  · intro attrs strRes s hdisp hs
    simp [convert_reference, pyHasAttr, hdisp, hs]
  · intro xs
    simp [convert_reference, pyHasAttr, pyStr, Except.map]
  · intro es
    simp [convert_reference, pyHasAttr, pyStr, Except.map]
  intro ref e h
  cases ref with
  | none => simp [convert_reference] at h
  | str s => simp [convert_reference] at h
  | int n => simp [convert_reference] at h
  | boolv b => simp [convert_reference] at h
  | float r => simp [convert_reference] at h
  | datetime iso => simp [convert_reference] at h
  | list xs => simp [convert_reference, pyHasAttr, pyStr] at h
  | dict es => simp [convert_reference, pyHasAttr, pyStr] at h
  | obj attrs strRes =>
    cases hd : alistLookup attrs "display" with
    | none =>
      cases strRes with
      | inr s => simp [convert_reference, pyHasAttr, hd, pyStr] at h
      | inl e' =>
        simp [convert_reference, pyHasAttr, hd, pyStr, refFallback] at h
        simp [pyStr, h]
    | some x =>
      cases x with
      | inl e' =>
        cases strRes with
        | inr s => simp [convert_reference, pyHasAttr, hd, pyStr, refFallback] at h
        | inl e2 =>
          simp [convert_reference, pyHasAttr, hd, pyStr, refFallback] at h
          simp [pyStr, h]
      | inr v =>
        cases strRes with
        | inr s =>
          simp only [convert_reference, pyHasAttr, hd] at h
          cases h2 : alistLookup attrs "id" with
          | none =>
            cases h3 : alistLookup attrs "key" with
            | none => simp [pyGetattrD, pyGetattr, h2, h3, hd] at h
            | some y =>
              cases y with
              | inl e3 =>
                simp [pyGetattrD, pyGetattr, h2, h3, hd, refFallback, pyStr] at h
              | inr w => simp [pyGetattrD, pyGetattr, h2, h3, hd] at h
          | some y =>
            cases y with
            | inl e3 => simp [pyGetattrD, h2, refFallback, pyStr] at h
            | inr w =>
              cases h3 : alistLookup attrs "key" with
              | none => simp [pyGetattrD, pyGetattr, h2, h3, hd] at h
              | some z =>
                cases z with
                | inl e4 =>
                  simp [pyGetattrD, pyGetattr, h2, h3, hd, refFallback, pyStr] at h
                | inr w2 => simp [pyGetattrD, pyGetattr, h2, h3, hd] at h
        | inl e2 =>
          simp only [convert_reference, pyHasAttr, hd] at h
          simp only [pyGetattrD, pyGetattr, hd, refFallback, pyStr] at h
          rcases h2 : alistLookup attrs "id" with _ | (e3 | w) <;>
            rcases h3 : alistLookup attrs "key" with _ | (e4 | w2) <;>
              simp [h2, h3] at h <;> simp [pyStr, h]

/-- Witness for C1: the Reference-record clause at a concrete
display-bearing object, the string-conversion clause at a concrete
display-less object, and the error-propagation clause at a concrete
malformed object. -/
theorem claim_C1_witness :
    convert_reference (.obj [("display", .inr (.str "Open")),
      ("id", .inr (.str "5")), ("key", .inr (.str "open"))] (.inr "<status>")) =
      .ok (.dict [("id", .str "5"), ("key", .str "open"),
        ("display", .str "Open")]) ∧
    convert_reference (.obj [] (.inr "plain")) = .ok (.str "plain") ∧
    pyStr (.obj [] (.inl (.other "boom"))) = .error (.other "boom") :=
  ⟨claim_C1_normalizer_behavior.2.2.2.2.2.2.1
      [("display", .inr (.str "Open")), ("id", .inr (.str "5")),
       ("key", .inr (.str "open"))] (.inr "<status>") (.str "Open") rfl
      (fun e h => by simp [alistLookup] at h)
      (fun e h => by simp [alistLookup] at h),
   claim_C1_normalizer_behavior.2.2.2.2.2.2.2.1 [] (.inr "plain") "plain"
     rfl rfl,
   claim_C1_normalizer_behavior.2.2.2.2.2.2.2.2.2.2
     (.obj [] (.inl (.other "boom"))) (.other "boom") rfl⟩

/-! ## Claim C4 -/

/-- C4 counterexample: a canonical Reference record is a Python dict, and
dicts do not have a `display` attribute, so `convert_reference`
string-converts it instead of returning it unchanged — normalization is
not idempotent on Reference records. -/
theorem claim_C4_counterexample :
    convert_reference (.dict [("id", .str "5"), ("key", .str "open"),
      ("display", .str "Open")]) = .ok (.str "<dict repr>") ∧
    PyVal.str "<dict repr>" ≠
      .dict [("id", .str "5"), ("key", .str "open"), ("display", .str "Open")] :=
  ⟨rfl, by simp⟩

/-- C4 (amended): `convert_reference` is idempotent on primitives and
`None` (they are returned unchanged, so reapplication is the identity),
but a Reference record — being a dict — is string-converted, not returned
unchanged. -/
theorem claim_C4_idempotence :
    (∀ v, isPrim v = true →
      convert_reference v = .ok v ∧
      (convert_reference v).bind convert_reference = convert_reference v) ∧
    (∀ entries, ∃ s, convert_reference (.dict entries) = .ok (.str s)) := by
  constructor
  · intro v hv
    cases v <;> simp [isPrim] at hv <;> exact ⟨rfl, rfl⟩
  · intro entries
    exact ⟨"<dict repr>", by simp [convert_reference, pyHasAttr, pyStr]⟩

/-- Witness for C4 at the primitive `7`. -/
theorem claim_C4_witness :
    convert_reference (.int 7) = .ok (.int 7) ∧
    (convert_reference (.int 7)).bind convert_reference =
      convert_reference (.int 7) :=
  claim_C4_idempotence.1 (.int 7) rfl

/-! ## Claim C3 -/

/-- C3 counterexample: a raw issue missing the `key` attribute makes
`format_issue` raise `AttributeError` — the field does not resolve to
`null`. -/
theorem claim_C3_counterexample :
    format_issue (.obj [] (.inr "<Issue object>")) =
      .error (.other "AttributeError: key") := rfl

/-- C3 (amended): whenever `format_issue` succeeds, its output is a
record with exactly the documented keys, in order; but a source field
that is absent raises `AttributeError` (converted to an error record at
the tool boundary) rather than resolving the key to `null`. -/
theorem claim_C3_formatter_shape :
    (∀ issue d, format_issue issue = .ok d →
      ∃ entries, d = .dict entries ∧ entries.map Prod.fst =
        ["key", "summary", "description", "status", "assignee", "created_at",
         "updated_at", "priority", "type", "queue"]) ∧
    (∀ attrs strRes, alistLookup attrs "key" = Option.none →
      format_issue (.obj attrs strRes) = .error (.other "AttributeError: key")) := by
  constructor
  · intro issue d h
    simp only [format_issue, except_bind_ok, Except.ok.injEq] at h
    obtain ⟨k, -, s, -, de, -, sr, -, st, -, ar, -, asg, -, cr, -, ca, -, ur, -,
      ua, -, pr, -, p, -, tr, -, t, -, qr, -, q, -, hd⟩ := h
    subst hd
    exact ⟨_, rfl, rfl⟩
  · intro attrs strRes h
    simp [format_issue, pyGetattr, h, Bind.bind, Except.bind]

/-- Witness for C3: a fully-populated issue keeps the documented key set;
an issue without `key` raises. -/
theorem claim_C3_witness :
    (∃ entries,
      PyVal.dict [("key", PyVal.str "TASK-1"), ("summary", PyVal.str "x"),
        ("description", PyVal.none), ("status", PyVal.none),
        ("assignee", PyVal.none), ("created_at", PyVal.none),
        ("updated_at", PyVal.none), ("priority", PyVal.none),
        ("type", PyVal.none), ("queue", PyVal.none)] = .dict entries ∧
      entries.map Prod.fst =
        ["key", "summary", "description", "status", "assignee", "created_at",
         "updated_at", "priority", "type", "queue"]) ∧
    format_issue (.obj [("summary", .inr (.str "x"))] (.inr "<Issue>")) =
      .error (.other "AttributeError: key") :=
  ⟨claim_C3_formatter_shape.1
      (.obj [("key", .inr (.str "TASK-1")), ("summary", .inr (.str "x")),
        ("description", .inr PyVal.none), ("status", .inr PyVal.none),
        ("assignee", .inr PyVal.none), ("createdAt", .inr PyVal.none),
        ("updatedAt", .inr PyVal.none), ("priority", .inr PyVal.none),
        ("type", .inr PyVal.none), ("queue", .inr PyVal.none)] (.inr "<Issue>"))
      _ rfl,
   claim_C3_formatter_shape.2 [("summary", .inr (.str "x"))] (.inr "<Issue>") rfl⟩

/-! ## Claim C5 -/

theorem formatIssueList_length (xs : List PyVal) (fs : List PyVal)
    (h : formatIssueList xs = .ok fs) : fs.length = xs.length := by
  induction xs generalizing fs with
  | nil =>
    simp only [formatIssueList, Except.ok.injEq] at h
    subst h; rfl
  | cons x rest ih =>
    simp only [formatIssueList, except_bind_ok, Except.ok.injEq] at h
    obtain ⟨f, hf, fs2, hfs2, hd⟩ := h
    subst hd
    simp [ih fs2 hfs2]

/-- C5: whenever `search_issues` returns the success shape, the `total`
field equals the length of the `issues` list of that same response — it
is `len(issues)` of the fetched page, not a server-side count. -/
theorem claim_C5_total_is_page_length
    (find : String × PyVal × PyVal → Except Exn (List PyVal))
    (query : String) (per_page page : Option Int) (fs : List PyVal) (n : Int)
    (h : search_issues find query per_page page =
      .ok (.dict [("issues", .list fs), ("total", .int n)])) :
    n = fs.length := by
  unfold search_issues handleAll at h
  cases hfind : find (findRequest query per_page page) with
  | error e =>
    rw [hfind] at h
    simp [Bind.bind, Except.bind, errDict] at h
  | ok xs =>
    rw [hfind] at h
    simp only [Bind.bind, Except.bind] at h
    cases hfmt : formatIssueList xs with
    | error e =>
      rw [hfmt] at h
      simp [Bind.bind, Except.bind, errDict] at h
    | ok fs2 =>
      rw [hfmt] at h
      simp [Bind.bind, Except.bind] at h
      obtain ⟨hfs, hn⟩ := h
      subst hfs
      have hl := formatIssueList_length xs _ hfmt
      omega

/-- Witness for C5 with a client returning an empty page. -/
theorem claim_C5_witness :
    (0 : Int) = (([] : List PyVal).length : Int) :=
  claim_C5_total_is_page_length (fun _ => .ok []) "Queue: TEST"
    (some 50) (some 1) [] 0 rfl

/-! ## Claim C8 -/

/-- C8 counterexample: an unsupplied `description` is not omitted from
the `create` request — it is present, sent as `None`. -/
theorem claim_C8_counterexample :
    alistLookup (createIssueRequest "PROJ" "Add feature" Option.none Option.none
      Option.none Option.none) "description" = some PyVal.none := rfl

/-- C8 (amended): the `create` request always carries all six keyword
parameters, with unsupplied optionals sent as `None` placeholders (not
omitted); the search request always carries `per_page` and `page`,
defaulting to `50` and `1`. -/
theorem claim_C8_request_shape :
    (∀ queue summary d t p a,
      (createIssueRequest queue summary d t p a).map Prod.fst =
        ["queue", "summary", "description", "type", "priority", "assignee"]) ∧
    (∀ queue summary t p a,
      createIssueRequest queue summary Option.none t p a =
        [("queue", .str queue), ("summary", .str summary),
         ("description", PyVal.none), ("type", optStrPy t),
         ("priority", optStrPy p), ("assignee", optStrPy a)]) ∧
    (∀ query, findRequest query (some 50) (some 1) = (query, .int 50, .int 1)) :=
  ⟨fun _ _ _ _ _ _ => rfl, fun _ _ _ _ _ => rfl, fun _ => rfl⟩

/-! ## Claim C9 -/

theorem editField_obj (attrs : List (String × (Exn ⊕ PyVal))) (strRes : Exn ⊕ String)
    (nm : String) (v : Option String) (name : String) :
    ∃ attrs2, editField (.obj attrs strRes) nm v = .ok (.obj attrs2 strRes) ∧
      alistLookup attrs2 name =
        if name = nm then editedValue (alistLookup attrs name) v
        else alistLookup attrs name := by
  cases v with
  | none => exact ⟨attrs, rfl, by simp [editedValue]⟩
  | some s =>
    by_cases hs : s = ""
    · subst hs
      exact ⟨attrs, rfl, by simp [editedValue]⟩
    · refine ⟨(nm, Sum.inr (.str s)) :: attrs,
        by simp [editField, hs, pySetattr], ?_⟩
      by_cases h : name = nm
      · subst h
        simp [alistLookup, editedValue, hs]
      · simp [alistLookup, editedValue, hs, h, Ne.symm h]

/-- C9: `edit_issue`'s assignment block treats `None` and the empty
string as "not supplied" (the field keeps its prior value) and assigns
exactly the fields given a truthy (non-empty) argument; every attribute
not named by a truthy argument — including all other attributes of the
issue — keeps its prior value. -/
theorem claim_C9_edit_semantics (attrs : List (String × (Exn ⊕ PyVal)))
    (strRes : Exn ⊕ String)
    (summary description type priority assignee : Option String)
    (name : String) :
    ∃ attrs2,
      applyEdits (.obj attrs strRes) summary description type priority assignee =
        .ok (.obj attrs2 strRes) ∧
      alistLookup attrs2 name =
        if name = "summary" then editedValue (alistLookup attrs name) summary
        else if name = "description" then
          editedValue (alistLookup attrs name) description
        else if name = "type" then editedValue (alistLookup attrs name) type
        else if name = "priority" then editedValue (alistLookup attrs name) priority
        else if name = "assignee" then editedValue (alistLookup attrs name) assignee
        else alistLookup attrs name := by
  obtain ⟨a1, h1, l1⟩ := editField_obj attrs strRes "summary" summary name
  obtain ⟨a2, h2, l2⟩ := editField_obj a1 strRes "description" description name
  obtain ⟨a3, h3, l3⟩ := editField_obj a2 strRes "type" type name
  obtain ⟨a4, h4, l4⟩ := editField_obj a3 strRes "priority" priority name
  obtain ⟨a5, h5, l5⟩ := editField_obj a4 strRes "assignee" assignee name
  refine ⟨a5, ?_, ?_⟩
  · simp [applyEdits, h1, h2, h3, h4, h5, Bind.bind, Except.bind]
  · rw [l5, l4, l3, l2, l1]
    by_cases hs : name = "summary" <;> by_cases hd : name = "description" <;>
      by_cases ht : name = "type" <;> by_cases hp : name = "priority" <;>
        by_cases ha : name = "assignee" <;> simp_all

/-! ## Claim C10 -/

/-- C10 counterexample: a present `display` entry is returned verbatim,
so `author` can be `null` (the claim says it is never null); and an
absent `createdBy` defaults to the empty dict, which takes the
`isinstance(dict)` branch and yields `'Unknown'`, not `str({})`. -/
theorem claim_C10_counterexample :
    format_comment (.dict [("createdBy", .dict [("display", PyVal.none)])]) =
      .ok (.dict [("id", PyVal.none), ("text", .str ""), ("author", PyVal.none),
        ("created_at", PyVal.none), ("updated_at", PyVal.none),
        ("version", PyVal.none)]) ∧
    authorDisplay (.dict []) = .ok (.str "Unknown") ∧
    pyStr (.dict []) = .ok "<dict repr>" ∧
    (PyVal.str "Unknown") ≠ .str "<dict repr>" := ⟨rfl, rfl, rfl, by simp⟩

/-- C10 (amended): the author value for a mapping-style record is: the
`display` entry of `createdBy` when that is a dict (absent `createdBy`
defaults to the empty dict, hence `'Unknown'`; a missing `display` key
defaults to `'Unknown'`; a present entry is returned verbatim, even when
it is null or a nested record), and `str(createdBy)` when it is any
non-dict value; and the `author` field of every successfully formatted
comment is exactly this value. -/
theorem claim_C10_author_rule :
    (∀ es, alistLookup es "createdBy" = Option.none →
      authorDisplay (.dict es) = .ok (.str "Unknown")) ∧
    (∀ es es2, alistLookup es "createdBy" = some (.dict es2) →
      authorDisplay (.dict es) = .ok (dictGetD es2 "display" (.str "Unknown"))) ∧
    (∀ es v, alistLookup es "createdBy" = some v → (∀ es2, v ≠ .dict es2) →
      authorDisplay (.dict es) = (pyStr v).map .str) ∧
    (∀ c d, format_comment c = .ok d →
      ∃ entries av, d = .dict entries ∧ alistLookup entries "author" = some av ∧
        authorDisplay c = .ok av) := by
  refine ⟨?_, ?_, ?_, ?_⟩
  · intro es h
    simp [authorDisplay, pyHasAttr, pyDictGetMethod, dictGetD, alistLookup, h,
      Bind.bind, Except.bind]
  · intro es es2 h
    simp [authorDisplay, pyHasAttr, pyDictGetMethod, dictGetD, h,
      Bind.bind, Except.bind]
  · intro es v h hnd
    cases v with
    | dict es2 => exact absurd rfl (hnd es2)
    | obj a st =>
      cases st with
      | inl e =>
        simp [authorDisplay, pyHasAttr, pyDictGetMethod, dictGetD, h,
          Bind.bind, Except.bind, pyStr, Except.map]
      | inr s =>
        simp [authorDisplay, pyHasAttr, pyDictGetMethod, dictGetD, h,
          Bind.bind, Except.bind, pyStr, Except.map]
    | _ =>
      simp [authorDisplay, pyHasAttr, pyDictGetMethod, dictGetD, h,
        Bind.bind, Except.bind, pyStr, Except.map]
  · intro c d h
    simp only [format_comment, except_bind_ok] at h
    obtain ⟨author, hauthor, hg, hhg, hbr⟩ := h
    cases hg with
    | true =>
      simp only [if_true, except_bind_ok, Except.ok.injEq] at hbr
      obtain ⟨i, -, t, -, ca, -, ua, -, ve, -, hd⟩ := hbr
      subst hd
      exact ⟨_, author, rfl, rfl, hauthor⟩
    | false =>
      simp only [Bool.false_eq_true, if_false, except_bind_ok,
        Except.ok.injEq] at hbr
      obtain ⟨i, -, t, -, ca, -, ua, -, ve, -, hd⟩ := hbr
      subst hd
      exact ⟨_, author, rfl, rfl, hauthor⟩

/-- Witness for C10: the author rule applied at concrete records. -/
theorem claim_C10_witness :
    authorDisplay (.dict [("text", .str "hi")]) = .ok (.str "Unknown") ∧
    authorDisplay (.dict [("createdBy", .dict [("display", .str "Alice")])]) =
      .ok (dictGetD [("display", .str "Alice")] "display" (.str "Unknown")) ∧
    authorDisplay (.dict [("createdBy", .str "bob")]) =
      (pyStr (.str "bob")).map .str ∧
    (∃ entries av,
      PyVal.dict [("id", PyVal.none), ("text", .str ""),
        ("author", .str "Unknown"), ("created_at", PyVal.none),
        ("updated_at", PyVal.none), ("version", PyVal.none)] = .dict entries ∧
      alistLookup entries "author" = some av ∧
      authorDisplay (.dict [("id", PyVal.none)]) = .ok av) :=
  ⟨claim_C10_author_rule.1 [("text", .str "hi")] rfl,
   claim_C10_author_rule.2.1 _ [("display", .str "Alice")] rfl,
   claim_C10_author_rule.2.2.1 _ (.str "bob") rfl (fun es2 => by simp),
   claim_C10_author_rule.2.2.2 (.dict [("id", PyVal.none)]) _ rfl⟩

/-! ## Claim C6 -/

theorem safePyStr_ok (v : PyVal) (h : safePyStrArg v = true) :
    ∃ s, pyStr v = .ok s := by
  cases v with
  | obj a st =>
    cases st with
    | inl e => simp [safePyStrArg] at h
    | inr s => exact ⟨s, rfl⟩
  | none => exact ⟨_, rfl⟩
  | str s => exact ⟨_, rfl⟩
  | int n => exact ⟨_, rfl⟩
  | boolv b => exact ⟨_, rfl⟩
  | float r => exact ⟨_, rfl⟩
  | datetime iso => exact ⟨_, rfl⟩
  | list xs => exact ⟨_, rfl⟩
  | dict es => exact ⟨_, rfl⟩

theorem safeAttrs_lookup (attrs : List (String × (Exn ⊕ PyVal)))
    (h : safeAttrs attrs = true) (n : String) :
    alistLookup attrs n = Option.none ∨
      ∃ y, alistLookup attrs n = some (Sum.inr y) := by
  induction attrs with
  | nil => exact Or.inl rfl
  | cons kv rest ih =>
    obtain ⟨k, x⟩ := kv
    cases x with
    | inl e => simp [safeAttrs] at h
    | inr y =>
      simp only [safeAttrs] at h
      by_cases hk : k = n
      · exact Or.inr ⟨y, by simp [alistLookup, hk]⟩
      · simpa [alistLookup, hk] using ih h

theorem safeAttrs_getattrD (attrs : List (String × (Exn ⊕ PyVal)))
    (st : Exn ⊕ String) (n : String) (d : PyVal) (h : safeAttrs attrs = true) :
    pyGetattrD (.obj attrs st) n d = .ok (attrGetD attrs n d) := by
  rcases safeAttrs_lookup attrs h n with hl | ⟨y, hl⟩ <;>
    simp [pyGetattrD, attrGetD, hl]

theorem safe_authorDisplay (c : PyVal) (h : safeCommentRecord c = true) :
    ∃ av, authorDisplay c = .ok av := by
  cases c with
  | dict es =>
    simp only [safeCommentRecord] at h
    cases hcb : alistLookup es "createdBy" with
    | none =>
      exact ⟨.str "Unknown", by simp [authorDisplay, pyHasAttr,
        pyDictGetMethod, dictGetD, alistLookup, hcb, Bind.bind, Except.bind]⟩
    | some v =>
      rw [hcb] at h
      cases v with
      | dict es2 =>
        exact ⟨dictGetD es2 "display" (.str "Unknown"), by
          simp [authorDisplay, pyHasAttr, pyDictGetMethod, dictGetD, hcb,
            Bind.bind, Except.bind]⟩
      | none =>
        obtain ⟨s, hs⟩ := safePyStr_ok _ h
        exact ⟨.str s, by simp [authorDisplay, pyHasAttr, pyDictGetMethod,
          dictGetD, hcb, hs, Bind.bind, Except.bind]⟩
      | str s2 =>
        obtain ⟨s, hs⟩ := safePyStr_ok _ h
        exact ⟨.str s, by simp [authorDisplay, pyHasAttr, pyDictGetMethod,
          dictGetD, hcb, hs, Bind.bind, Except.bind]⟩
      | int n =>
        obtain ⟨s, hs⟩ := safePyStr_ok _ h
        exact ⟨.str s, by simp [authorDisplay, pyHasAttr, pyDictGetMethod,
          dictGetD, hcb, hs, Bind.bind, Except.bind]⟩
      | boolv b =>
        obtain ⟨s, hs⟩ := safePyStr_ok _ h
        exact ⟨.str s, by simp [authorDisplay, pyHasAttr, pyDictGetMethod,
          dictGetD, hcb, hs, Bind.bind, Except.bind]⟩
      | float r =>
        obtain ⟨s, hs⟩ := safePyStr_ok _ h
        exact ⟨.str s, by simp [authorDisplay, pyHasAttr, pyDictGetMethod,
          dictGetD, hcb, hs, Bind.bind, Except.bind]⟩
      | datetime iso =>
        obtain ⟨s, hs⟩ := safePyStr_ok _ h
        exact ⟨.str s, by simp [authorDisplay, pyHasAttr, pyDictGetMethod,
          dictGetD, hcb, hs, Bind.bind, Except.bind]⟩
      | list xs =>
        obtain ⟨s, hs⟩ := safePyStr_ok _ h
        exact ⟨.str s, by simp [authorDisplay, pyHasAttr, pyDictGetMethod,
          dictGetD, hcb, hs, Bind.bind, Except.bind]⟩
      | obj a2 st2 =>
        obtain ⟨s, hs⟩ := safePyStr_ok _ h
        exact ⟨.str s, by simp [authorDisplay, pyHasAttr, pyDictGetMethod,
          dictGetD, hcb, hs, Bind.bind, Except.bind]⟩
  | obj attrs st =>
    simp only [safeCommentRecord, Bool.and_eq_true] at h
    obtain ⟨⟨hsafe, hget⟩, hcb⟩ := h
    have hget2 : alistLookup attrs "get" = Option.none :=
      Option.isNone_iff_eq_none.mp hget
    cases hcbl : alistLookup attrs "createdBy" with
    | none =>
      exact ⟨.str "Unknown", by simp [authorDisplay, pyHasAttr, pyGetattrD,
        dictGetD, alistLookup, hget2, hcbl, Bind.bind, Except.bind]⟩
    | some x =>
      rw [hcbl] at hcb
      cases x with
      | inl e => simp at hcb
      | inr v =>
        cases v with
        | dict es2 =>
          exact ⟨dictGetD es2 "display" (.str "Unknown"), by
            simp [authorDisplay, pyHasAttr, pyGetattrD, dictGetD, hget2, hcbl,
              Bind.bind, Except.bind]⟩
        | none =>
          obtain ⟨s, hs⟩ := safePyStr_ok _ hcb
          exact ⟨.str s, by simp [authorDisplay, pyHasAttr, pyGetattrD,
            dictGetD, hget2, hcbl, hs, Bind.bind, Except.bind]⟩
        | str s2 =>
          obtain ⟨s, hs⟩ := safePyStr_ok _ hcb
          exact ⟨.str s, by simp [authorDisplay, pyHasAttr, pyGetattrD,
            dictGetD, hget2, hcbl, hs, Bind.bind, Except.bind]⟩
        | int n =>
          obtain ⟨s, hs⟩ := safePyStr_ok _ hcb
          exact ⟨.str s, by simp [authorDisplay, pyHasAttr, pyGetattrD,
            dictGetD, hget2, hcbl, hs, Bind.bind, Except.bind]⟩
        | boolv b =>
          obtain ⟨s, hs⟩ := safePyStr_ok _ hcb
          exact ⟨.str s, by simp [authorDisplay, pyHasAttr, pyGetattrD,
            dictGetD, hget2, hcbl, hs, Bind.bind, Except.bind]⟩
        | float r =>
          obtain ⟨s, hs⟩ := safePyStr_ok _ hcb
          exact ⟨.str s, by simp [authorDisplay, pyHasAttr, pyGetattrD,
            dictGetD, hget2, hcbl, hs, Bind.bind, Except.bind]⟩
        | datetime iso =>
          obtain ⟨s, hs⟩ := safePyStr_ok _ hcb
          exact ⟨.str s, by simp [authorDisplay, pyHasAttr, pyGetattrD,
            dictGetD, hget2, hcbl, hs, Bind.bind, Except.bind]⟩
        | list xs =>
          obtain ⟨s, hs⟩ := safePyStr_ok _ hcb
          exact ⟨.str s, by simp [authorDisplay, pyHasAttr, pyGetattrD,
            dictGetD, hget2, hcbl, hs, Bind.bind, Except.bind]⟩
        | obj a2 st2 =>
          obtain ⟨s, hs⟩ := safePyStr_ok _ hcb
          exact ⟨.str s, by simp [authorDisplay, pyHasAttr, pyGetattrD,
            dictGetD, hget2, hcbl, hs, Bind.bind, Except.bind]⟩
  | none => simp [safeCommentRecord] at h
  | str s => simp [safeCommentRecord] at h
  | int n => simp [safeCommentRecord] at h
  | boolv b => simp [safeCommentRecord] at h
  | float r => simp [safeCommentRecord] at h
  | datetime iso => simp [safeCommentRecord] at h
  | list xs => simp [safeCommentRecord] at h

theorem safe_format_comment (c : PyVal) (h : safeCommentRecord c = true) :
    ∃ entries, format_comment c = .ok (.dict entries) ∧
      entries.map Prod.fst =
        ["id", "text", "author", "created_at", "updated_at", "version"] := by
  obtain ⟨av, hav⟩ := safe_authorDisplay c h
  cases c with
  | dict es =>
    refine ⟨[("id", dictGetD es "id" .none), ("text", dictGetD es "text" (.str "")),
      ("author", av), ("created_at", dictGetD es "createdAt" .none),
      ("updated_at", dictGetD es "updatedAt" .none),
      ("version", dictGetD es "version" .none)], ?_, rfl⟩
    simp [format_comment, hav, pyHasAttr, pyDictGetMethod, Bind.bind, Except.bind]
  | obj attrs st =>
    simp only [safeCommentRecord, Bool.and_eq_true] at h
    obtain ⟨⟨hsafe, hget⟩, -⟩ := h
    have hget2 : alistLookup attrs "get" = Option.none :=
      Option.isNone_iff_eq_none.mp hget
    refine ⟨[("id", attrGetD attrs "id" .none),
      ("text", attrGetD attrs "text" (.str "")), ("author", av),
      ("created_at", attrGetD attrs "createdAt" .none),
      ("updated_at", attrGetD attrs "updatedAt" .none),
      ("version", attrGetD attrs "version" .none)], ?_, rfl⟩
    simp [format_comment, hav, pyHasAttr, hget2,
      safeAttrs_getattrD attrs st _ _ hsafe, Bind.bind, Except.bind]
  | none => simp [safeCommentRecord] at h
  | str s => simp [safeCommentRecord] at h
  | int n => simp [safeCommentRecord] at h
  | boolv b => simp [safeCommentRecord] at h
  | float r => simp [safeCommentRecord] at h
  | datetime iso => simp [safeCommentRecord] at h
  | list xs => simp [safeCommentRecord] at h

/-- C6 (amended): a page of comment records formats successfully whenever
each record is mapping-style with a benign `createdBy`, or
attribute-style with non-raising attributes and no `get` attribute —
mixed pages included, each record branching independently — and every
output record has the fixed key set; fields `id`, `created_at`,
`updated_at` and `version` default to `null` when missing, but `text`
defaults to the empty string and `author` to `'Unknown'` (not to
`null`); in particular a mapping-style record missing `version` formats
`version` as `null`. -/
theorem claim_C6_comment_formatting :
    (∀ page : List PyVal, page.all safeCommentRecord = true →
      ∃ out, formatComments page = .ok out ∧ out.length = page.length ∧
        ∀ d ∈ out, ∃ entries, d = .dict entries ∧ entries.map Prod.fst =
          ["id", "text", "author", "created_at", "updated_at", "version"]) ∧
    (∀ es, alistLookup es "createdBy" = Option.none →
      format_comment (.dict es) = .ok (.dict
        [("id", dictGetD es "id" .none), ("text", dictGetD es "text" (.str "")),
         ("author", .str "Unknown"),
         ("created_at", dictGetD es "createdAt" .none),
         ("updated_at", dictGetD es "updatedAt" .none),
         ("version", dictGetD es "version" .none)])) ∧
    (∀ attrs strRes, safeAttrs attrs = true →
      alistLookup attrs "get" = Option.none →
      alistLookup attrs "createdBy" = Option.none →
      format_comment (.obj attrs strRes) = .ok (.dict
        [("id", attrGetD attrs "id" .none),
         ("text", attrGetD attrs "text" (.str "")),
         ("author", .str "Unknown"),
         ("created_at", attrGetD attrs "createdAt" .none),
         ("updated_at", attrGetD attrs "updatedAt" .none),
         ("version", attrGetD attrs "version" .none)])) ∧
    (∀ es d, format_comment (.dict es) = .ok (.dict d) →
      alistLookup es "version" = Option.none →
      alistLookup d "version" = some PyVal.none) := by
  refine ⟨?_, ?_, ?_, ?_⟩
  · intro page h
    induction page with
    | nil => exact ⟨[], rfl, rfl, by simp⟩
    | cons c rest ih =>
      simp only [List.all_cons, Bool.and_eq_true] at h
      obtain ⟨hc, hrest⟩ := h
      obtain ⟨entries, hfc, hkeys⟩ := safe_format_comment c hc
      obtain ⟨out, hout, hlen, hall⟩ := ih hrest
      refine ⟨.dict entries :: out, ?_, by simp [hlen], ?_⟩
      · simp [formatComments, hfc, hout, Bind.bind, Except.bind]
      · intro d hd
        rcases List.mem_cons.mp hd with rfl | hd2
        · exact ⟨entries, rfl, hkeys⟩
        · exact hall d hd2
  · intro es h
    simp [format_comment, authorDisplay, pyHasAttr, pyDictGetMethod, dictGetD,
      alistLookup, h, Bind.bind, Except.bind]
  · intro attrs strRes hsafe hget hcb
    simp [format_comment, authorDisplay, pyHasAttr, dictGetD,
      alistLookup, attrGetD, hget, hcb, Bind.bind, Except.bind,
      safeAttrs_getattrD attrs strRes _ _ hsafe]
  · intro es d h hv
    simp only [format_comment, authorDisplay, except_bind_ok,
      Except.ok.injEq] at h
    obtain ⟨author, -, hg, hhg, hbr⟩ := h
    have : hg = true := by
      simpa [pyHasAttr] using hhg.symm
    subst this
    simp only [if_true, except_bind_ok, Except.ok.injEq] at hbr
    obtain ⟨i, -, t, -, ca, -, ua, -, ve, hve, hd⟩ := hbr
    have hd2 : d = [("id", i), ("text", t), ("author", author),
      ("created_at", ca), ("updated_at", ua), ("version", ve)] := by
      have := hd
      simp only [PyVal.dict.injEq] at this
      exact this.symm
    subst hd2
    have hve2 : ve = PyVal.none := by
      simpa [pyDictGetMethod, dictGetD, hv] using hve.symm
    subst hve2
    rfl

/-- C6 counterexample: a mapping-style record with `text` and
`createdBy` missing formats `text` as the empty string and `author` as
`'Unknown'` — not every extracted field defaults to `null`. -/
theorem claim_C6_counterexample :
    format_comment (.dict []) = .ok (.dict [("id", PyVal.none),
      ("text", .str ""), ("author", .str "Unknown"), ("created_at", PyVal.none),
      ("updated_at", PyVal.none), ("version", PyVal.none)]) ∧
    PyVal.str "" ≠ PyVal.none ∧ PyVal.str "Unknown" ≠ PyVal.none :=
  ⟨rfl, by simp, by simp⟩

/-- Witness for C6: a mixed mapping-style / attribute-style page, and the
per-style default equations at concrete records. -/
theorem claim_C6_witness :
    (∃ out, formatComments [.dict [("text", .str "hi")],
        .obj [("id", .inr (.int 5))] (.inr "<comment>")] = .ok out ∧
      out.length = [PyVal.dict [("text", .str "hi")],
        PyVal.obj [("id", .inr (.int 5))] (.inr "<comment>")].length ∧
      ∀ d ∈ out, ∃ entries, d = .dict entries ∧ entries.map Prod.fst =
        ["id", "text", "author", "created_at", "updated_at", "version"]) ∧
    format_comment (.dict [("text", .str "hi")]) = .ok (.dict
      [("id", PyVal.none), ("text", .str "hi"), ("author", .str "Unknown"),
       ("created_at", PyVal.none), ("updated_at", PyVal.none),
       ("version", PyVal.none)]) ∧
    format_comment (.obj [("id", .inr (.int 5))] (.inr "<comment>")) = .ok (.dict
      [("id", .int 5), ("text", .str ""), ("author", .str "Unknown"),
       ("created_at", PyVal.none), ("updated_at", PyVal.none),
       ("version", PyVal.none)]) ∧
    alistLookup [("id", PyVal.none), ("text", PyVal.str "hi"),
      ("author", PyVal.str "Unknown"), ("created_at", PyVal.none),
      ("updated_at", PyVal.none), ("version", PyVal.none)] "version" =
      some PyVal.none :=
  ⟨claim_C6_comment_formatting.1 _ rfl,
   claim_C6_comment_formatting.2.1 [("text", .str "hi")] rfl,
   claim_C6_comment_formatting.2.2.1 [("id", .inr (.int 5))] (.inr "<comment>")
     rfl rfl rfl,
   claim_C6_comment_formatting.2.2.2 [("text", .str "hi")] _ rfl rfl⟩
